import Mathlib

/-!
Verification of the GitHub-issues-to-Jira-import converter.

The TypeScript source (`src/unnamed/part_000`) is shallowly embedded below.
Machine conventions:
* JavaScript objects used as ordered string-keyed maps (`issueTypeMap`,
  `priorityMap`, `userMap`, a field spec's `map`, the comment dictionary)
  become association lists `List (String × String)` / `List (String × _)`;
  `Object.keys` iteration order is the list order, property access is
  `List.lookup`.
* `null` / `undefined` values become `Option`.
* Run-time `TypeError`s (calling `.reduce` on `null`, `.length` on
  `undefined`, `.some` on `undefined`) become `Except.error`.
* The in-place mutation of `issue.labels` performed by `mapLabelToValue`
  becomes explicit state passing: the function returns the chosen value
  together with the reduced label list.
* The external markdown converter `markdownToAtlassianWikiMarkup`, which can
  throw, is a parameter of type `String → Except String String`.
* Console logging is a side effect with no influence on the produced data and
  is dropped.
-/

/-- A GitHub account, `interface GithubUser`. -/
structure GithubUser where
  login : String
deriving DecidableEq, Repr

/-- A GitHub label, `interface GithubLabel`. -/
structure GithubLabel where
  name : String
deriving DecidableEq, Repr

/-- A GitHub milestone, `interface GithubMilestone`. -/
structure GithubMilestone where
  title : String
deriving DecidableEq, Repr

/-- A GitHub issue, `interface GithubIssue`.  `state` is `"open"` or
`"closed"` at run time; `assignee` and `milestone` may be `null`. -/
structure GithubIssue where
  labels : List GithubLabel
  number : Nat
  state : String
  user : GithubUser
  assignee : Option GithubUser
  created_at : String
  updated_at : String
  title : String
  body : String
  milestone : Option GithubMilestone
deriving DecidableEq, Repr

/-- A GitHub comment, `interface GithubComment`. -/
structure GithubComment where
  body : String
  user : GithubUser
  created_at : String
  issue_url : String
deriving DecidableEq, Repr

/-- A Jira comment, `interface JiraComment`. -/
structure JiraComment where
  body : String
  author : String
  created : String
deriving DecidableEq, Repr

/-- A Jira custom field, `interface JiraCustomField`. -/
structure JiraCustomField where
  fieldName : String
  fieldType : String
  value : List String
deriving DecidableEq, Repr

/-- A Jira issue, `interface JiraIssue`.  `resolution` is `string | null`;
`reporter` is typed `string` in the source but is `undefined` at run time
when the user map has no entry, hence `Option`. -/
structure JiraIssue where
  key : String
  status : String
  resolution : Option String
  reporter : Option String
  assignee : Option String
  fixedVersions : List String
  created : String
  updated : String
  summary : String
  description : String
  issueType : String
  priority : String
  labels : List String
  customFieldValues : List JiraCustomField
  comments : List JiraComment
deriving DecidableEq, Repr

/-- A Jira project, `interface JiraProject`. -/
structure JiraProject where
  name : String
  externalName : String
  key : String
  issues : List JiraIssue
  versions : List String
deriving DecidableEq, Repr

/-- The final artifact shape `\x7b projects: [JiraProject] \x7d`. -/
structure JiraData where
  projects : List JiraProject
deriving DecidableEq, Repr

/-- One entry of `config.customFields`: field name/type plus either a
label→value table (`map`) or a list of label name stems (`prefixes`). -/
structure FieldSpec where
  fieldName : String
  fieldType : String
  map : Option (List (String × String))
  prefixes : Option (List String)
deriving DecidableEq, Repr

/-- The configuration values read from `config.yaml` that the mapping logic
consumes.  `defaultIssueType` and `defaultPriority` hold the destructuring
defaults (`'Story'`, `'Medium'`) when the file omits them. -/
structure Config where
  projectKey : String
  repo : String
  userMap : List (String × String)
  issueTypeMap : Option (List (String × String))
  defaultIssueType : String
  priorityMap : Option (List (String × String))
  defaultPriority : String
  customFields : Option (List FieldSpec)

/-- The external `markdownToAtlassianWikiMarkup` library function: it either
produces converted markup or throws. -/
abbrev MdConverter := String → Except String String

/-- `mdToWiki`: attempts markdown conversion, returning the original markdown
when the converter throws (the `try`/`catch` in the source; the `catch`
branch only logs).  Total: always returns a `String`, never propagates the
failure. -/
def mdToWiki (convert : MdConverter) (md : String) : String :=
  match convert md with
  | Except.ok wiki => wiki
  | Except.error _ => md

/-- `mapDate`: drops the trailing `Z` (JavaScript `slice(0, -1)`) and appends
`+00:00`. -/
def mapDate (githubDate : String) : String :=
  String.mk (githubDate.data.dropLast ++ ("+00:00").data)

/-- `mapGithubCommentsToJiraComments`. -/
def mapGithubCommentsToJiraComments (convert : MdConverter)
    (githubComments : List GithubComment) : List JiraComment :=
  githubComments.map fun comment =>
    { body := mdToWiki convert comment.body
      author := comment.user.login
      created := mapDate comment.created_at }

/-- One step of the `reduce` inside `mapLabelToValue`: the JS accumulator is
the current value string, and the mutated `githubIssue.labels` is threaded
explicitly as the second component. -/
def mapLabelStep (st : String × List GithubLabel) (kv : String × String) :
    String × List GithubLabel :=
  let githubLabelNames := st.2.map GithubLabel.name
  if kv.1 ∈ githubLabelNames then
    (kv.2, st.2.filter fun label => label.name != kv.1)
  else st

/-- `mapLabelToValue`: classifies an issue using an ordered label→value
table.  The source takes the issue and mutates `issue.labels`; here the label
list goes in and the reduced list comes out alongside the chosen value.
An absent (`!map`) or empty table short-circuits to the default. -/
def mapLabelToValue (labels : List GithubLabel)
    (tbl : Option (List (String × String))) (defaultValue : String) :
    String × List GithubLabel :=
  match tbl with
  | none => (defaultValue, labels)
  | some entries =>
    if entries.isEmpty then (defaultValue, labels)
    else entries.foldl mapLabelStep (defaultValue, labels)

/-- JavaScript `label.startsWith(stem)`. -/
def jsStartsWith (s stem : String) : Bool :=
  stem.data.isPrefixOf s.data

/-- Removes the first occurrence of `pat` in `s` (JavaScript
`s.replace(pat, '')` with a string pattern replaces only the first
occurrence, anywhere in the string; an absent pattern leaves `s` unchanged;
an empty pattern matches at the start). -/
def replaceFirstOcc (s pat : List Char) : List Char :=
  if pat.isPrefixOf s then s.drop pat.length
  else
    match s with
    | [] => []
    | c :: rest => c :: replaceFirstOcc rest pat

/-- JavaScript `s.replace(pat, '')` at `String` level. -/
def jsRemoveFirst (s pat : String) : String :=
  String.mk (replaceFirstOcc s.data pat.data)

/-- JavaScript `label.split(' ').join('_')`: every space becomes an
underscore. -/
def spacesToUnderscores (label : String) : String :=
  String.mk (label.data.map fun c => if c = ' ' then '_' else c)

/-- The `value` computed for one custom-field spec from the label names.
The `map` branch checks the looked-up value for truthiness (`map[l] ?`), so
an empty-string mapped value is skipped like a missing one.  A spec with
neither `map` nor `prefixes` hits `undefined.some` — a `TypeError`. -/
def fieldSpecValue (spec : FieldSpec) (names : List String) :
    Except String (List String) :=
  match spec.map with
  | some tbl =>
    Except.ok <| names.foldl
      (fun acc githubLabel =>
        match List.lookup githubLabel tbl with
        | some v => if v = "" then acc else acc ++ [v]
        | none => acc)
      []
  | none =>
    match spec.prefixes with
    | some stems =>
      Except.ok <|
        ((names.filter fun label => stems.any fun stem => jsStartsWith label stem).foldl
          (fun acc label =>
            acc ++ [stems.foldl (fun result stem => jsRemoveFirst result stem) label])
          []).map fun label => spacesToUnderscores label
    | none => Except.error "TypeError: cannot read some of undefined"

/-- `mapLabelsToCustomFields` with the `l.name` projection already applied
(both source branches begin with `githubLabels.map(l => l.name)`).
An absent `config.customFields` hits `undefined.length` — a `TypeError`. -/
def mapLabelsToCustomFieldsNames (customFields : Option (List FieldSpec))
    (names : List String) : Except String (List JiraCustomField) :=
  match customFields with
  | none => Except.error "TypeError: cannot read length of undefined"
  | some specs =>
    if specs.isEmpty then Except.ok []
    else
      specs.mapM fun spec =>
        (fieldSpecValue spec names).map fun v =>
          { fieldName := spec.fieldName, fieldType := spec.fieldType, value := v }

/-- `mapLabelsToCustomFields`. -/
def mapLabelsToCustomFields (customFields : Option (List FieldSpec))
    (githubLabels : List GithubLabel) : Except String (List JiraCustomField) :=
  mapLabelsToCustomFieldsNames customFields (githubLabels.map GithubLabel.name)

/-- `mapGithubIssueToJiraIssue`.  The object literal evaluates `issueType`
(first table pass, mutating the labels), then `priority` (second pass), then
snapshots `labels`, then computes `customFieldValues` (which can throw), then
`comments`.  `issueComments` is the dictionary entry for the issue's number —
possibly `undefined`, hence `Option`. -/
def mapGithubIssueToJiraIssue (convert : MdConverter) (cfg : Config)
    (issue : GithubIssue) (issueComments : Option (List GithubComment)) :
    Except String JiraIssue :=
  let r1 := mapLabelToValue issue.labels cfg.issueTypeMap cfg.defaultIssueType
  let r2 := mapLabelToValue r1.2 cfg.priorityMap cfg.defaultPriority
  (mapLabelsToCustomFieldsNames cfg.customFields (r2.2.map GithubLabel.name)).map
    fun customFieldValues =>
      { key := cfg.projectKey ++ "-" ++ Nat.repr issue.number
        status := "To Do"
        resolution := if issue.state = "closed" then some "Fixed" else none
        reporter := List.lookup issue.user.login cfg.userMap
        assignee := issue.assignee.map fun a =>
          match List.lookup a.login cfg.userMap with
          | some mapped => if mapped = "" then a.login else mapped
          | none => a.login
        fixedVersions :=
          match issue.milestone with
          | some m => [m.title]
          | none => []
        created := mapDate issue.created_at
        updated := mapDate issue.updated_at
        summary := issue.title
        description := mdToWiki convert issue.body
        issueType := r1.1
        priority := r2.1
        labels := r2.2.map GithubLabel.name
        customFieldValues := customFieldValues
        comments :=
          match issueComments with
          | some cs => mapGithubCommentsToJiraComments convert cs
          | none => [] }

/-- JavaScript `comment.issue_url.split('/').pop()`: the trailing segment of
the URL.  `split` on the single character `/` is modelled on the character
list; `pop` of the (always non-empty) split result is `getLastD`. -/
def splitOnSlash : List Char → List (List Char)
  | [] => [[]]
  | c :: rest =>
    let r := splitOnSlash rest
    if c = '/' then [] :: r
    else
      match r with
      | [] => [[c]]
      | seg :: segs => (c :: seg) :: segs

/-- The grouping key derived from a comment's `issue_url`. -/
def lastSegment (url : String) : String :=
  String.mk ((splitOnSlash url.data).getLastD [])

/-- One step of the `reduce` inside `createCommentDictionary`: append the
comment to the existing group for `k`, else add a fresh singleton group. -/
def updateEntry (dict : List (String × List GithubComment)) (k : String)
    (comment : GithubComment) : List (String × List GithubComment) :=
  match dict with
  | [] => [(k, [comment])]
  | (k', cs) :: rest =>
    if k' = k then (k', cs ++ [comment]) :: rest
    else (k', cs) :: updateEntry rest k comment

/-- `createCommentDictionary`: groups comments by the trailing segment of
their `issue_url`, preserving input order inside each group. -/
def createCommentDictionary (githubComments : List GithubComment) :
    List (String × List GithubComment) :=
  githubComments.foldl
    (fun dictionary comment =>
      updateEntry dictionary (lastSegment comment.issue_url) comment)
    []

/-- The comment group stored for key `k`, reading a missing entry as the
empty group. -/
def lookupGroup (dict : List (String × List GithubComment)) (k : String) :
    List GithubComment :=
  (List.lookup k dict).getD []

/-- `mapGithubIssuesToJiraIssues`: maps every issue, handing each its
dictionary entry (`commentsDictionary[issue.number]`, looked up by the
decimal string of the number). -/
def mapGithubIssuesToJiraIssues (convert : MdConverter) (cfg : Config)
    (githubIssues : List GithubIssue)
    (commentsDictionary : List (String × List GithubComment)) :
    Except String (List JiraIssue) :=
  githubIssues.mapM fun issue =>
    mapGithubIssueToJiraIssue convert cfg issue
      (List.lookup (Nat.repr issue.number) commentsDictionary)

/-- JavaScript `[...new Set(l)]`: first occurrences, in order. -/
def jsSetDedup (l : List String) : List String :=
  l.foldl (fun acc x => if x ∈ acc then acc else acc ++ [x]) []

/-- `mapGithubDataToJiraData`.  When comment fetching was disabled upstream,
`githubComments` is `null` and `createCommentDictionary` calls `.reduce` on
it — a `TypeError` that aborts the run. -/
def mapGithubDataToJiraData (convert : MdConverter) (cfg : Config)
    (githubIssues : List GithubIssue)
    (githubComments : Option (List GithubComment)) : Except String JiraData :=
  match githubComments with
  | none => Except.error "TypeError: cannot read reduce of null"
  | some cs =>
    let commentDictionary := createCommentDictionary cs
    (mapGithubIssuesToJiraIssues convert cfg githubIssues commentDictionary).map
      fun issues =>
        { projects :=
            [{ name := cfg.repo
               externalName := cfg.repo
               key := cfg.projectKey
               issues := issues
               versions := jsSetDedup (issues.flatMap JiraIssue.fixedVersions) }] }

/-! Specification-side characterisations, compared with the embedded code in
the theorems below. -/

/-- The value the classifier actually produces on a non-empty table: the
mapped value of the *last* table key occurring among the given label names,
or the default when none occurs. -/
def lastMatchValue (tbl : List (String × String)) (names : List String)
    (d : String) : String :=
  tbl.foldl (fun acc kv => if kv.1 ∈ names then kv.2 else acc) d

/-- Decimal digits of `n`, most significant first, defined without the fuel
of `Nat.toDigitsCore`; used to reason about `Nat.repr`. -/
def decRepr (n : Nat) : List Char :=
  if n < 10 then [Nat.digitChar n]
  else decRepr (n / 10) ++ [Nat.digitChar (n % 10)]
decreasing_by exact Nat.div_lt_self (by omega) (by omega)

/-! Concrete data used by the witness theorems. -/

/-- A markdown converter that always succeeds, returning its input. -/
def convW : MdConverter := fun md => Except.ok md

/-- A converter that always throws. -/
def convErr : MdConverter := fun _ => Except.error "boom"

/-- A configuration with an issue-type table, a user map and no custom-field
specs. -/
def cfgW : Config :=
  { projectKey := "PRJ"
    repo := "repo"
    userMap := [("octocat", "jdoe")]
    issueTypeMap := some [("bug", "Bug")]
    defaultIssueType := "Story"
    priorityMap := none
    defaultPriority := "Medium"
    customFields := some [] }

/-- A minimal configuration: no tables, no custom-field specs. -/
def cfgW2 : Config :=
  { projectKey := "P"
    repo := "r"
    userMap := []
    issueTypeMap := none
    defaultIssueType := "Story"
    priorityMap := none
    defaultPriority := "Medium"
    customFields := some [] }

/-- A configuration whose user map sends `alice` to the empty string. -/
def cfgC5 : Config :=
  { projectKey := "P"
    repo := "r"
    userMap := [("alice", "")]
    issueTypeMap := none
    defaultIssueType := "Story"
    priorityMap := none
    defaultPriority := "Medium"
    customFields := some [] }

/-- A closed GitHub issue carrying a classifiable label and a milestone. -/
def issueW : GithubIssue :=
  { labels := [⟨"bug"⟩, ⟨"team-backend infra"⟩]
    number := 42
    state := "closed"
    user := ⟨"octocat"⟩
    assignee := some ⟨"octocat"⟩
    created_at := "2021-01-01T00:00:00Z"
    updated_at := "2021-01-02T00:00:00Z"
    title := "T"
    body := "B"
    milestone := some ⟨"1.0"⟩ }

/-- The Jira issue `issueW` maps to under `cfgW`. -/
def jiW : JiraIssue :=
  { key := "PRJ-42"
    status := "To Do"
    resolution := some "Fixed"
    reporter := some "jdoe"
    assignee := some "jdoe"
    fixedVersions := ["1.0"]
    created := "2021-01-01T00:00:00+00:00"
    updated := "2021-01-02T00:00:00+00:00"
    summary := "T"
    description := "B"
    issueType := "Bug"
    priority := "Medium"
    labels := ["team-backend infra"]
    customFieldValues := []
    comments := [] }

/-- An open issue, number 1, with a milestone. -/
def issueW8a : GithubIssue :=
  { labels := [], number := 1, state := "open", user := ⟨"u"⟩, assignee := none
    created_at := "aZ", updated_at := "aZ", title := "t", body := "b"
    milestone := some ⟨"1.0"⟩ }

/-- An open issue, number 2, with the same milestone title as `issueW8a`. -/
def issueW8b : GithubIssue :=
  { labels := [], number := 2, state := "open", user := ⟨"u"⟩, assignee := none
    created_at := "aZ", updated_at := "aZ", title := "t", body := "b"
    milestone := some ⟨"1.0"⟩ }

/-- The Jira issue `issueW8a` maps to under `cfgW2`. -/
def jiW8a : JiraIssue :=
  { key := "P-1", status := "To Do", resolution := none, reporter := none
    assignee := none, fixedVersions := ["1.0"], created := "a+00:00"
    updated := "a+00:00", summary := "t", description := "b"
    issueType := "Story", priority := "Medium", labels := []
    customFieldValues := [], comments := [] }

/-- The Jira issue `issueW8b` maps to under `cfgW2`. -/
def jiW8b : JiraIssue :=
  { key := "P-2", status := "To Do", resolution := none, reporter := none
    assignee := none, fixedVersions := ["1.0"], created := "a+00:00"
    updated := "a+00:00", summary := "t", description := "b"
    issueType := "Story", priority := "Medium", labels := []
    customFieldValues := [], comments := [] }

/-- The output of the full pipeline on `[issueW8a, issueW8b]` with an empty
comment collection under `cfgW2`. -/
def outW8 : JiraData :=
  { projects :=
      [{ name := "r", externalName := "r", key := "P"
         issues := [jiW8a, jiW8b], versions := ["1.0"] }] }

/-- An issue with an assignee whose login the user map sends to `""`. -/
def issueC5 : GithubIssue :=
  { labels := [], number := 3, state := "open", user := ⟨"alice"⟩
    assignee := some ⟨"alice"⟩, created_at := "aZ", updated_at := "aZ"
    title := "t", body := "b", milestone := none }

/-- Comments attached (via `issue_url`) to issues 42, 7, 42. -/
def csW : List GithubComment :=
  [⟨"c1", ⟨"u"⟩, "aZ", "repos/o/r/issues/42"⟩,
   ⟨"c2", ⟨"u"⟩, "aZ", "repos/o/r/issues/7"⟩,
   ⟨"c3", ⟨"u"⟩, "aZ", "repos/o/r/issues/42"⟩]

/-- An issue, number 5, with no comments in `csW`. -/
def issueW7 : GithubIssue :=
  { labels := [], number := 5, state := "open", user := ⟨"u"⟩, assignee := none
    created_at := "aZ", updated_at := "aZ", title := "t", body := "b"
    milestone := none }

/-- The Jira issue `issueW7` maps to under `cfgW2` with no comment group. -/
def jiW7 : JiraIssue :=
  { key := "P-5", status := "To Do", resolution := none, reporter := none
    assignee := none, fixedVersions := [], created := "a+00:00"
    updated := "a+00:00", summary := "t", description := "b"
    issueType := "Story", priority := "Medium", labels := []
    customFieldValues := [], comments := [] }

/-! ### General lemmas -/

theorem exceptMap_eq_ok {ε α β : Type} {f : α → β} {x : Except ε α} {b : β}
    (h : x.map f = Except.ok b) : ∃ a, x = Except.ok a ∧ b = f a := by
  cases x with
  | ok a => exact ⟨a, rfl, (Except.ok.inj h).symm⟩
  | error e => exact absurd h (by simp [Except.map])

/-- Every field of a successfully mapped issue, read off the embedding. -/
theorem mapIssue_fields (convert : MdConverter) (cfg : Config)
    (issue : GithubIssue) (cmts : Option (List GithubComment)) (ji : JiraIssue)
    (h : mapGithubIssueToJiraIssue convert cfg issue cmts = Except.ok ji) :
    ji.key = cfg.projectKey ++ "-" ++ Nat.repr issue.number ∧
    ji.status = "To Do" ∧
    ji.resolution = (if issue.state = "closed" then some "Fixed" else none) ∧
    ji.reporter = List.lookup issue.user.login cfg.userMap ∧
    ji.assignee = (issue.assignee.map fun a =>
      match List.lookup a.login cfg.userMap with
      | some mapped => if mapped = "" then a.login else mapped
      | none => a.login) ∧
    ji.labels =
      (mapLabelToValue
        (mapLabelToValue issue.labels cfg.issueTypeMap cfg.defaultIssueType).2
        cfg.priorityMap cfg.defaultPriority).2.map GithubLabel.name ∧
    mapLabelsToCustomFieldsNames cfg.customFields ji.labels =
      Except.ok ji.customFieldValues ∧
    ji.comments = (cmts.map (mapGithubCommentsToJiraComments convert)).getD [] := by
  simp only [mapGithubIssueToJiraIssue] at h
  obtain ⟨cfv, hcfv, hji⟩ := exceptMap_eq_ok h
  subst hji
  refine ⟨rfl, rfl, rfl, rfl, rfl, rfl, hcfv, ?_⟩
  cases cmts <;> rfl

/-! ### Decimal representation: `Nat.repr` is injective -/

theorem decRepr_lt (n : Nat) (h : n < 10) : decRepr n = [Nat.digitChar n] := by
  rw [decRepr]
  simp [h]

theorem decRepr_ge (n : Nat) (h : ¬ n < 10) :
    decRepr n = decRepr (n / 10) ++ [Nat.digitChar (n % 10)] := by
  rw [decRepr]
  simp [h]

theorem decRepr_ne_nil (n : Nat) : decRepr n ≠ [] := by
  by_cases h : n < 10
  · rw [decRepr_lt n h]
    simp
  · rw [decRepr_ge n h]
    simp

theorem digitChar_inj10 : ∀ a < 10, ∀ b < 10,
    Nat.digitChar a = Nat.digitChar b → a = b := by decide

theorem decRepr_injective : ∀ n m : Nat, decRepr n = decRepr m → n = m := by
  intro n
  induction n using Nat.strong_induction_on with
  | _ n ih =>
    intro m h
    by_cases hn : n < 10 <;> by_cases hm : m < 10
    · rw [decRepr_lt n hn, decRepr_lt m hm] at h
      exact digitChar_inj10 n hn m hm (List.cons.inj h).1
    · rw [decRepr_lt n hn, decRepr_ge m hm] at h
      have hlen := congrArg List.length h
      simp at hlen
      exact absurd hlen (decRepr_ne_nil (m / 10))
    · rw [decRepr_ge n hn, decRepr_lt m hm] at h
      have hlen := congrArg List.length h
      simp at hlen
      exact absurd hlen (decRepr_ne_nil (n / 10))
    · rw [decRepr_ge n hn, decRepr_ge m hm] at h
      obtain ⟨h1, h2⟩ := List.append_inj' h (by simp)
      have hdiv : n / 10 = m / 10 :=
        ih (n / 10) (Nat.div_lt_self (by omega) (by omega)) (m / 10) h1
      have hmod : n % 10 = m % 10 :=
        digitChar_inj10 (n % 10) (Nat.mod_lt n (by omega)) (m % 10)
          (Nat.mod_lt m (by omega)) (List.cons.inj h2).1
      omega

theorem toDigitsCore_eq_decRepr (n : Nat) : ∀ (f : Nat) (acc : List Char),
    n < f → Nat.toDigitsCore 10 f n acc = decRepr n ++ acc := by
  induction n using Nat.strong_induction_on with
  | _ n ih =>
    intro f acc hf
    match f, hf with
    | f + 1, hf =>
      have hunf : Nat.toDigitsCore 10 (f + 1) n acc =
          (if n / 10 = 0 then Nat.digitChar (n % 10) :: acc
           else Nat.toDigitsCore 10 f (n / 10)
                  (Nat.digitChar (n % 10) :: acc)) := by
        simp [Nat.toDigitsCore]
      rw [hunf]
      by_cases h0 : n / 10 = 0
      · have hn10 : n < 10 := by omega
        rw [if_pos h0, decRepr_lt n hn10, Nat.mod_eq_of_lt hn10]
        rfl
      · have hge : ¬ n < 10 := by omega
        rw [if_neg h0,
          ih (n / 10) (Nat.div_lt_self (by omega) (by omega)) f
            (Nat.digitChar (n % 10) :: acc) (by omega),
          decRepr_ge n hge]
        simp

theorem natRepr_eq_decRepr (n : Nat) : Nat.repr n = String.mk (decRepr n) := by
  have h : Nat.repr n = (Nat.toDigitsCore 10 (n + 1) n []).asString := rfl
  rw [h, toDigitsCore_eq_decRepr n (n + 1) [] (Nat.lt_succ_self n)]
  simp [List.asString]

theorem natRepr_injective : Function.Injective Nat.repr := by
  intro n m h
  rw [natRepr_eq_decRepr, natRepr_eq_decRepr] at h
  exact decRepr_injective n m (congrArg String.data h)

/-- Appending distinct decimal representations to a common front yields
distinct strings. -/
theorem key_inj (p : String) {n m : Nat}
    (h : p ++ "-" ++ Nat.repr n = p ++ "-" ++ Nat.repr m) : n = m := by
  apply natRepr_injective
  have hd := congrArg String.data h
  simp only [String.data_append] at hd
  have h2 : (Nat.repr n).data = (Nat.repr m).data := List.append_cancel_left hd
  exact congrArg String.mk h2

/-! ### Claim C3 — key format and uniqueness -/

/-- C3: every mapped issue's `key` is the configured project key, a hyphen,
and the decimal representation of the source issue's number; under one
configuration, issues with distinct numbers receive distinct keys. -/
theorem c3_key_format (convert : MdConverter) (cfg : Config)
    (issue : GithubIssue) (cmts : Option (List GithubComment)) (ji : JiraIssue)
    (h : mapGithubIssueToJiraIssue convert cfg issue cmts = Except.ok ji) :
    ji.key = cfg.projectKey ++ "-" ++ Nat.repr issue.number ∧
    (∀ (convert2 : MdConverter) (issue2 : GithubIssue)
       (cmts2 : Option (List GithubComment)) (ji2 : JiraIssue),
       mapGithubIssueToJiraIssue convert2 cfg issue2 cmts2 = Except.ok ji2 →
       issue.number ≠ issue2.number → ji.key ≠ ji2.key) := by
  obtain ⟨hkey, -⟩ := mapIssue_fields _ _ _ _ _ h
  refine ⟨hkey, ?_⟩
  intro convert2 issue2 cmts2 ji2 h2 hne hkeq
  obtain ⟨hkey2, -⟩ := mapIssue_fields _ _ _ _ _ h2
  apply hne
  apply key_inj cfg.projectKey
  rw [← hkey, ← hkey2, hkeq]

/-- Witness for C3 at a concrete issue. -/
theorem c3_witness :
    mapGithubIssueToJiraIssue convW cfgW issueW none = Except.ok jiW ∧
    jiW.key = cfgW.projectKey ++ "-" ++ Nat.repr issueW.number :=
  ⟨by rfl, (c3_key_format convW cfgW issueW none jiW (by rfl)).1⟩

/-! ### Claim C4 — status and resolution -/

/-- C4: every mapped issue has status `"To Do"`, and resolution `"Fixed"`
exactly when the source state is `"closed"`, none otherwise. -/
theorem c4_status_resolution (convert : MdConverter) (cfg : Config)
    (issue : GithubIssue) (cmts : Option (List GithubComment)) (ji : JiraIssue)
    (h : mapGithubIssueToJiraIssue convert cfg issue cmts = Except.ok ji) :
    ji.status = "To Do" ∧
    (ji.resolution = some "Fixed" ↔ issue.state = "closed") ∧
    (issue.state ≠ "closed" → ji.resolution = none) := by
  obtain ⟨-, hstatus, hres, -⟩ := mapIssue_fields _ _ _ _ _ h
  refine ⟨hstatus, ?_, ?_⟩
  · rw [hres]
    by_cases hs : issue.state = "closed" <;> simp [hs]
  · intro hs
    rw [hres, if_neg hs]

/-- Witness for C4 at a concrete closed issue. -/
theorem c4_witness :
    mapGithubIssueToJiraIssue convW cfgW issueW none = Except.ok jiW ∧
    (jiW.status = "To Do" ∧
     (jiW.resolution = some "Fixed" ↔ issueW.state = "closed") ∧
     (issueW.state ≠ "closed" → jiW.resolution = none)) :=
  ⟨by rfl, c4_status_resolution convW cfgW issueW none jiW (by rfl)⟩

/-! ### Claim C5 — identity resolution asymmetry -/

/-- C5 counterexample: the user map sends login `alice` to the empty string;
an entry exists, yet the mapped assignee is the raw login `alice`, not the
entry `""` — JavaScript `||` also discards a falsy (empty-string) entry. -/
theorem c5_counterexample :
    (mapGithubIssueToJiraIssue convW cfgC5 issueC5 none).map JiraIssue.assignee =
      Except.ok (some "alice") ∧
    List.lookup "alice" cfgC5.userMap = some "" ∧
    (some "alice" : Option String) ≠ some "" :=
  ⟨by rfl, by rfl, by decide⟩

/-- C5 (amended): the reporter is the user-map entry for the source user's
login with no fallback (absent when unmapped); the assignee, when the source
issue has one, is the user-map entry for the assignee's login, falling back
to the raw login when no entry exists *or the entry is the empty string*
(JavaScript falsiness), and absent when the source has no assignee. -/
theorem c5_identity_resolution (convert : MdConverter) (cfg : Config)
    (issue : GithubIssue) (cmts : Option (List GithubComment)) (ji : JiraIssue)
    (h : mapGithubIssueToJiraIssue convert cfg issue cmts = Except.ok ji) :
    ji.reporter = List.lookup issue.user.login cfg.userMap ∧
    (issue.assignee = none → ji.assignee = none) ∧
    (∀ a, issue.assignee = some a →
      (List.lookup a.login cfg.userMap = none → ji.assignee = some a.login) ∧
      (∀ v, List.lookup a.login cfg.userMap = some v →
        ji.assignee = some (if v = "" then a.login else v))) := by
  obtain ⟨-, -, -, hrep, hass, -⟩ := mapIssue_fields _ _ _ _ _ h
  refine ⟨hrep, ?_, ?_⟩
  · intro hnone
    rw [hass, hnone]
    rfl
  · intro a ha
    constructor
    · intro hl
      rw [hass, ha]
      simp [hl]
    · intro v hl
      rw [hass, ha]
      simp [hl]

/-- Witness for C5: a mapped assignee login and an unmapped reporter login. -/
theorem c5_witness :
    mapGithubIssueToJiraIssue convW cfgW issueW none = Except.ok jiW ∧
    issueW.assignee = some ⟨"octocat"⟩ ∧
    List.lookup "octocat" cfgW.userMap = some "jdoe" ∧
    jiW.assignee = some (if "jdoe" = "" then "octocat" else "jdoe") :=
  ⟨by rfl, rfl, by rfl,
    ((c5_identity_resolution convW cfgW issueW none jiW (by rfl)).2.2
        ⟨"octocat"⟩ rfl).2 "jdoe" (by rfl)⟩

/-! ### Claim C9 — total rich-text conversion -/

/-- C9: `mdToWiki` is total over strings: it returns the converted markup on
converter success and the original input unchanged on converter failure,
never propagating the failure (its return type is `String`, not `Except`). -/
theorem c9_mdToWiki_total (convert : MdConverter) (md : String) :
    (∀ wiki, convert md = Except.ok wiki → mdToWiki convert md = wiki) ∧
    (∀ err, convert md = Except.error err → mdToWiki convert md = md) := by
  constructor
  · intro wiki hw
    simp [mdToWiki, hw]
  · intro err he
    simp [mdToWiki, he]

/-- Witness for C9: a throwing converter and a succeeding one. -/
theorem c9_witness :
    (convErr "# t" = Except.error "boom" ∧ mdToWiki convErr "# t" = "# t") ∧
    (convW "# t" = Except.ok "# t" ∧ mdToWiki convW "# t" = "# t") :=
  ⟨⟨rfl, (c9_mdToWiki_total convErr "# t").2 "boom" rfl⟩,
   ⟨rfl, (c9_mdToWiki_total convW "# t").1 "# t" rfl⟩⟩

/-! ### Claim C10 — labels snapshot vs custom-field input -/

/-- C10: the `labels` field snapshots the names left after issue-type and
priority classification, and the recorded custom fields are exactly the
(pure) custom-field mapping applied to that same snapshot — the mapping
removes nothing from the label set. -/
theorem c10_labels_snapshot (convert : MdConverter) (cfg : Config)
    (issue : GithubIssue) (cmts : Option (List GithubComment)) (ji : JiraIssue)
    (h : mapGithubIssueToJiraIssue convert cfg issue cmts = Except.ok ji) :
    ji.labels =
      (mapLabelToValue
        (mapLabelToValue issue.labels cfg.issueTypeMap cfg.defaultIssueType).2
        cfg.priorityMap cfg.defaultPriority).2.map GithubLabel.name ∧
    mapLabelsToCustomFieldsNames cfg.customFields ji.labels =
      Except.ok ji.customFieldValues := by
  obtain ⟨-, -, -, -, -, hlabs, hcf, -⟩ := mapIssue_fields _ _ _ _ _ h
  exact ⟨hlabs, hcf⟩

/-- Witness for C10 at a concrete issue with a surviving label. -/
theorem c10_witness :
    mapGithubIssueToJiraIssue convW cfgW issueW none = Except.ok jiW ∧
    (jiW.labels =
      (mapLabelToValue
        (mapLabelToValue issueW.labels cfgW.issueTypeMap cfgW.defaultIssueType).2
        cfgW.priorityMap cfgW.defaultPriority).2.map GithubLabel.name ∧
     mapLabelsToCustomFieldsNames cfgW.customFields jiW.labels =
      Except.ok jiW.customFieldValues) :=
  ⟨by rfl, c10_labels_snapshot convW cfgW issueW none jiW (by rfl)⟩

/-! ### Claim C2 — absent optional collections -/

/-- C2 (code defect): a `null` comments collection crashes the run
(`null.reduce` in `createCommentDictionary`), and an absent
`config.customFields` crashes custom-field mapping (`undefined.length`),
instead of the empty defaults the specification promises. -/
theorem c2_absent_collections_crash :
    (∀ (convert : MdConverter) (cfg : Config)
       (githubIssues : List GithubIssue),
      mapGithubDataToJiraData convert cfg githubIssues none =
        Except.error "TypeError: cannot read reduce of null") ∧
    (∀ names, mapLabelsToCustomFieldsNames none names =
        Except.error "TypeError: cannot read length of undefined") :=
  ⟨fun _ _ _ => rfl, fun _ => rfl⟩

/-! ### Claim C1 — label classification order -/

/-- C1 counterexample: with table order `bug` then `feature`, default
`"Story"`, and labels `["feature", "bug"]`, the classifier returns
`"Story"` (the *last* matching key's value) and removes *both* matched
labels — not `"Bug"` with only `bug` removed, as the claim states. -/
theorem c1_counterexample :
    mapLabelToValue [⟨"feature"⟩, ⟨"bug"⟩]
        (some [("bug", "Bug"), ("feature", "Story")]) "Story" =
      ("Story", []) ∧
    ("Story", ([] : List GithubLabel)) ≠ ("Bug", [⟨"feature"⟩]) :=
  ⟨by decide, by decide⟩

theorem lastMatchValue_congr (tbl : List (String × String))
    (names1 names2 : List String) :
    (∀ k ∈ tbl.map Prod.fst, (k ∈ names1 ↔ k ∈ names2)) →
    ∀ d, lastMatchValue tbl names1 d = lastMatchValue tbl names2 d := by
  induction tbl with
  | nil =>
    intro _ d
    rfl
  | cons kv rest ih =>
    intro h d
    have hk : kv.1 ∈ names1 ↔ kv.1 ∈ names2 := h kv.1 (by simp)
    have hrest : ∀ k ∈ rest.map Prod.fst, (k ∈ names1 ↔ k ∈ names2) :=
      fun k hkm => h k (by simp [hkm])
    simp only [lastMatchValue, List.foldl_cons]
    by_cases h1 : kv.1 ∈ names1
    · rw [if_pos h1, if_pos (hk.mp h1)]
      exact ih hrest kv.2
    · rw [if_neg h1, if_neg (fun h2 => h1 (hk.mpr h2))]
      exact ih hrest d

theorem mem_map_name_filter (labels : List GithubLabel) (x k : String)
    (hne : k ≠ x) :
    (k ∈ (labels.filter fun l => l.name != x).map GithubLabel.name) ↔
      k ∈ labels.map GithubLabel.name := by
  simp only [List.mem_map, List.mem_filter]
  constructor
  · rintro ⟨l, ⟨hl, -⟩, rfl⟩
    exact ⟨l, hl, rfl⟩
  · rintro ⟨l, hl, rfl⟩
    exact ⟨l, ⟨hl, by simpa [bne_iff_ne] using hne⟩, rfl⟩

theorem foldl_mapLabelStep (tbl : List (String × String)) :
    (tbl.map Prod.fst).Nodup →
    ∀ (d : String) (labels : List GithubLabel),
    tbl.foldl mapLabelStep (d, labels) =
      (lastMatchValue tbl (labels.map GithubLabel.name) d,
       labels.filter fun l => !(tbl.map Prod.fst).contains l.name) := by
  induction tbl with
  | nil =>
    intro _ d labels
    simp [lastMatchValue]
  | cons kv rest ih =>
    intro hnd d labels
    rw [List.map_cons, List.nodup_cons] at hnd
    obtain ⟨hkv, hnd'⟩ := hnd
    rw [List.foldl_cons]
    by_cases hmem : kv.1 ∈ labels.map GithubLabel.name
    · have hstep : mapLabelStep (d, labels) kv =
          (kv.2, labels.filter fun l => l.name != kv.1) := by
        simp [mapLabelStep, hmem]
      rw [hstep, ih hnd' kv.2 (labels.filter fun l => l.name != kv.1)]
      have hval : lastMatchValue (kv :: rest) (labels.map GithubLabel.name) d =
          lastMatchValue rest (labels.map GithubLabel.name) kv.2 := by
        simp only [lastMatchValue, List.foldl_cons, if_pos hmem]
      rw [hval]
      simp only [Prod.mk.injEq]
      constructor
      · exact lastMatchValue_congr rest _ _
          (fun k hk => mem_map_name_filter labels kv.1 k
            (fun he => hkv (he ▸ hk))) kv.2
      · rw [List.filter_filter]
        apply List.filter_congr
        intro l hl
        by_cases h1 : l.name = kv.1 <;>
          by_cases h2 : l.name ∈ rest.map Prod.fst <;>
            simp [h1, h2, List.contains_cons, bne_iff_ne]
    · have hstep : mapLabelStep (d, labels) kv = (d, labels) := by
        simp [mapLabelStep, hmem]
      rw [hstep, ih hnd' d labels]
      have hval : lastMatchValue (kv :: rest) (labels.map GithubLabel.name) d =
          lastMatchValue rest (labels.map GithubLabel.name) d := by
        simp only [lastMatchValue, List.foldl_cons, if_neg hmem]
      rw [hval]
      simp only [Prod.mk.injEq, true_and]
      apply List.filter_congr
      intro l hl
      have hlname : l.name ≠ kv.1 := by
        intro he
        exact hmem (he ▸ List.mem_map_of_mem GithubLabel.name hl)
      simp [List.contains_cons, hlname]

/-- C1 (amended): on a non-empty table with pairwise-distinct keys,
classification returns the mapped value of the *last* table key (in table
order) present among the issue's label names (the default when none is),
and removes *every* label whose name is a table key; only labels matching
no table key remain for subsequent steps. -/
theorem c1_last_match_wins (tbl : List (String × String))
    (labels : List GithubLabel) (d : String)
    (hnd : (tbl.map Prod.fst).Nodup) (hne : tbl ≠ []) :
    mapLabelToValue labels (some tbl) d =
      (lastMatchValue tbl (labels.map GithubLabel.name) d,
       labels.filter fun l => !(tbl.map Prod.fst).contains l.name) := by
  cases tbl with
  | nil => exact absurd rfl hne
  | cons kv rest =>
    show (if (kv :: rest).isEmpty then (d, labels)
          else (kv :: rest).foldl mapLabelStep (d, labels)) = _
    rw [List.isEmpty_cons]
    exact foldl_mapLabelStep (kv :: rest) hnd d labels

/-- Witness for C1 (amended) at the specification's own example. -/
theorem c1_witness :
    (([("bug", "Bug"), ("feature", "Story")].map Prod.fst).Nodup ∧
      ([("bug", "Bug"), ("feature", "Story")] : List (String × String)) ≠ []) ∧
    mapLabelToValue [⟨"feature"⟩, ⟨"bug"⟩]
        (some [("bug", "Bug"), ("feature", "Story")]) "Story" =
      (lastMatchValue [("bug", "Bug"), ("feature", "Story")]
        (([⟨"feature"⟩, ⟨"bug"⟩] : List GithubLabel).map GithubLabel.name)
        "Story",
       ([⟨"feature"⟩, ⟨"bug"⟩] : List GithubLabel).filter fun l =>
          !([("bug", "Bug"), ("feature", "Story")].map Prod.fst).contains l.name) :=
  ⟨⟨by decide, by decide⟩,
   c1_last_match_wins [("bug", "Bug"), ("feature", "Story")]
     [⟨"feature"⟩, ⟨"bug"⟩] "Story" (by decide) (by decide)⟩

/-! ### Claim C6 — custom fields from label name stems -/

theorem foldl_append_singleton {α β : Type} (f : α → β) (l : List α) :
    ∀ acc : List β, l.foldl (fun acc x => acc ++ [f x]) acc = acc ++ l.map f := by
  induction l with
  | nil =>
    intro acc
    simp
  | cons x xs ih =>
    intro acc
    simp [ih]

/-- C6: in stem (`prefixes`) mode, the value list is exactly the labels whose
name starts with a configured stem, in input order, each transformed by
removing each configured stem in turn (first occurrence, as a plain string
replacement) and then turning spaces into underscores; the specification's
example `"team-backend infra" ↦ "backend_infra"` is included. -/
theorem c6_stem_mode :
    (∀ (spec : FieldSpec) (names stems : List String),
      spec.map = none → spec.prefixes = some stems →
      fieldSpecValue spec names =
        Except.ok ((names.filter fun label =>
            stems.any fun stem => jsStartsWith label stem).map
          fun label => spacesToUnderscores
            (stems.foldl (fun result stem => jsRemoveFirst result stem) label))) ∧
    fieldSpecValue ⟨"Team", "select", none, some ["team-"]⟩
        ["team-backend infra"] = Except.ok ["backend_infra"] := by
  constructor
  · intro spec names stems hm hp
    have h1 : fieldSpecValue spec names =
        Except.ok (((names.filter fun label =>
            stems.any fun stem => jsStartsWith label stem).foldl
          (fun acc label =>
            acc ++ [stems.foldl (fun result stem => jsRemoveFirst result stem) label])
          []).map fun label => spacesToUnderscores label) := by
      unfold fieldSpecValue
      rw [hm, hp]
    rw [h1, foldl_append_singleton, List.nil_append, List.map_map]
    rfl
  · rfl

/-- Witness for C6 at the specification's example. -/
theorem c6_witness :
    ((⟨"Team", "select", none, some ["team-"]⟩ : FieldSpec).map = none ∧
     (⟨"Team", "select", none, some ["team-"]⟩ : FieldSpec).prefixes =
       some ["team-"]) ∧
    fieldSpecValue ⟨"Team", "select", none, some ["team-"]⟩
        ["team-backend infra", "other"] =
      Except.ok ((["team-backend infra", "other"].filter fun label =>
          ["team-"].any fun stem => jsStartsWith label stem).map
        fun label => spacesToUnderscores
          (["team-"].foldl (fun result stem => jsRemoveFirst result stem) label)) :=
  ⟨⟨rfl, rfl⟩,
   c6_stem_mode.1 ⟨"Team", "select", none, some ["team-"]⟩
     ["team-backend infra", "other"] ["team-"] rfl rfl⟩

/-! ### Claim C7 — comment grouping -/

theorem lookup_updateEntry_self (dict : List (String × List GithubComment))
    (k : String) (c : GithubComment) :
    List.lookup k (updateEntry dict k c) = some (lookupGroup dict k ++ [c]) := by
  induction dict with
  | nil =>
    simp [updateEntry, List.lookup, lookupGroup]
  | cons e rest ih =>
    obtain ⟨ek, ecs⟩ := e
    by_cases hek : ek = k
    · subst hek
      simp [updateEntry, List.lookup, lookupGroup]
    · have hb : (k == ek) = false := beq_eq_false_iff_ne.mpr fun h => hek h.symm
      simp [updateEntry, hek, List.lookup, lookupGroup, hb, ih]

theorem lookup_updateEntry_ne (dict : List (String × List GithubComment))
    (k k' : String) (c : GithubComment) (hne : k ≠ k') :
    List.lookup k (updateEntry dict k' c) = List.lookup k dict := by
  induction dict with
  | nil =>
    have hb : (k == k') = false := beq_eq_false_iff_ne.mpr hne
    simp [updateEntry, List.lookup, hb]
  | cons e rest ih =>
    obtain ⟨ek, ecs⟩ := e
    by_cases hek : ek = k'
    · subst hek
      have hb : (k == ek) = false := beq_eq_false_iff_ne.mpr hne
      simp [updateEntry, List.lookup, hb]
    · by_cases hk : k = ek
      · subst hk
        simp [updateEntry, hek, List.lookup]
      · have hb : (k == ek) = false := beq_eq_false_iff_ne.mpr hk
        simp [updateEntry, hek, List.lookup, hb, ih]

theorem lookupGroup_updateEntry_self (dict : List (String × List GithubComment))
    (k : String) (c : GithubComment) :
    lookupGroup (updateEntry dict k c) k = lookupGroup dict k ++ [c] := by
  simp [lookupGroup, lookup_updateEntry_self]

theorem lookupGroup_updateEntry_ne (dict : List (String × List GithubComment))
    (k k' : String) (c : GithubComment) (hne : k ≠ k') :
    lookupGroup (updateEntry dict k' c) k = lookupGroup dict k := by
  simp [lookupGroup, lookup_updateEntry_ne dict k k' c hne]

theorem lookupGroup_foldl_updateEntry :
    ∀ (cs : List GithubComment) (dict : List (String × List GithubComment))
      (k : String),
    lookupGroup
        (cs.foldl (fun d c => updateEntry d (lastSegment c.issue_url) c) dict)
        k =
      lookupGroup dict k ++ cs.filter fun c => lastSegment c.issue_url == k := by
  intro cs
  induction cs with
  | nil =>
    intro dict k
    simp
  | cons c rest ih =>
    intro dict k
    rw [List.foldl_cons, ih]
    by_cases hk : lastSegment c.issue_url = k
    · have hbt : (lastSegment c.issue_url == k) = true := by simp [hk]
      have hfilter : ((c :: rest).filter fun c => lastSegment c.issue_url == k) =
          c :: rest.filter fun c => lastSegment c.issue_url == k := by
        simp [List.filter_cons, hbt]
      subst hk
      rw [hfilter, lookupGroup_updateEntry_self]
      simp
    · have hbf : (lastSegment c.issue_url == k) = false := by
        simpa using hk
      have hfilter : ((c :: rest).filter fun c => lastSegment c.issue_url == k) =
          rest.filter fun c => lastSegment c.issue_url == k := by
        simp [List.filter_cons, hbf]
      rw [hfilter, lookupGroup_updateEntry_ne _ _ _ _ fun h => hk h.symm]

theorem lookup_foldl_updateEntry_none :
    ∀ (cs : List GithubComment) (dict : List (String × List GithubComment))
      (k : String),
    List.lookup k dict = none →
    (cs.filter fun c => lastSegment c.issue_url == k) = [] →
    List.lookup k
        (cs.foldl (fun d c => updateEntry d (lastSegment c.issue_url) c) dict) =
      none := by
  intro cs
  induction cs with
  | nil =>
    intro dict k hd _
    simpa using hd
  | cons c rest ih =>
    intro dict k hd hf
    have hhead : lastSegment c.issue_url ≠ k := by
      intro he
      have hbt : (lastSegment c.issue_url == k) = true := by simp [he]
      simp [List.filter_cons, hbt] at hf
    have hbf : (lastSegment c.issue_url == k) = false := by simpa using hhead
    have hrest : (rest.filter fun c => lastSegment c.issue_url == k) = [] := by
      simpa [List.filter_cons, hbf] using hf
    rw [List.foldl_cons]
    apply ih _ _ _ hrest
    rw [lookup_updateEntry_ne _ _ _ _ fun h => hhead h.symm]
    exact hd

/-- C7: every comment is grouped under the trailing path segment of its
`issue_url`, groups preserve input order (each group is exactly the input
filtered to that key); a key with no matching comment has no dictionary
entry, and an issue whose number has no group is mapped with an empty
comments list, not an error. -/
theorem c7_comment_grouping :
    (∀ (cs : List GithubComment) (k : String),
      lookupGroup (createCommentDictionary cs) k =
        cs.filter fun c => lastSegment c.issue_url == k) ∧
    (∀ (cs : List GithubComment) (k : String),
      (cs.filter fun c => lastSegment c.issue_url == k) = [] →
      List.lookup k (createCommentDictionary cs) = none) ∧
    (∀ (convert : MdConverter) (cfg : Config) (issue : GithubIssue)
       (cs : List GithubComment) (ji : JiraIssue),
      (cs.filter fun c => lastSegment c.issue_url == Nat.repr issue.number) = [] →
      mapGithubIssueToJiraIssue convert cfg issue
          (List.lookup (Nat.repr issue.number) (createCommentDictionary cs)) =
        Except.ok ji →
      ji.comments = []) := by
  refine ⟨?_, ?_, ?_⟩
  · intro cs k
    have h := lookupGroup_foldl_updateEntry cs [] k
    simpa [createCommentDictionary, lookupGroup, List.lookup] using h
  · intro cs k hf
    exact lookup_foldl_updateEntry_none cs [] k rfl hf
  · intro convert cfg issue cs ji hf h
    have hnone := lookup_foldl_updateEntry_none cs [] (Nat.repr issue.number) rfl hf
    rw [show createCommentDictionary cs =
          cs.foldl (fun d c => updateEntry d (lastSegment c.issue_url) c) []
        from rfl, hnone] at h
    obtain ⟨-, -, -, -, -, -, -, hcm⟩ := mapIssue_fields _ _ _ _ _ h
    simpa using hcm

/-- Witness for C7: keys `42` and `7`, and an issue (number 5) with no
group. -/
theorem c7_witness :
    (lookupGroup (createCommentDictionary csW) "42" =
      csW.filter fun c => lastSegment c.issue_url == "42") ∧
    (lookupGroup (createCommentDictionary csW) "7" =
      csW.filter fun c => lastSegment c.issue_url == "7") ∧
    (csW.filter fun c => lastSegment c.issue_url == Nat.repr issueW7.number) =
      [] ∧
    mapGithubIssueToJiraIssue convW cfgW2 issueW7
        (List.lookup (Nat.repr issueW7.number) (createCommentDictionary csW)) =
      Except.ok jiW7 ∧
    jiW7.comments = [] :=
  ⟨c7_comment_grouping.1 csW "42", c7_comment_grouping.1 csW "7", by rfl, by rfl,
   c7_comment_grouping.2.2 convW cfgW2 issueW7 csW jiW7 (by rfl) (by rfl)⟩

/-! ### Claim C8 — deduplicated version union -/

theorem mem_jsSetDedup_aux (l : List String) :
    ∀ (acc : List String) (x : String),
    (x ∈ l.foldl (fun acc y => if y ∈ acc then acc else acc ++ [y]) acc) ↔
      (x ∈ acc ∨ x ∈ l) := by
  induction l with
  | nil =>
    intro acc x
    simp
  | cons y ys ih =>
    intro acc x
    rw [List.foldl_cons]
    by_cases hy : y ∈ acc
    · rw [if_pos hy, ih]
      simp only [List.mem_cons]
      constructor
      · rintro (h | h)
        · exact Or.inl h
        · exact Or.inr (Or.inr h)
      · rintro (h | rfl | h)
        · exact Or.inl h
        · exact Or.inl hy
        · exact Or.inr h
    · rw [if_neg hy, ih]
      simp only [List.mem_append, List.mem_singleton, List.mem_cons]
      tauto

theorem nodup_jsSetDedup_aux (l : List String) :
    ∀ acc : List String, acc.Nodup →
    (l.foldl (fun acc y => if y ∈ acc then acc else acc ++ [y]) acc).Nodup := by
  induction l with
  | nil =>
    intro acc h
    simpa using h
  | cons y ys ih =>
    intro acc h
    rw [List.foldl_cons]
    by_cases hy : y ∈ acc
    · rw [if_pos hy]
      exact ih acc h
    · rw [if_neg hy]
      apply ih
      simp [List.nodup_append, h, hy]

theorem mem_jsSetDedup (l : List String) (x : String) :
    x ∈ jsSetDedup l ↔ x ∈ l := by
  have h := mem_jsSetDedup_aux l [] x
  simpa [jsSetDedup] using h

theorem nodup_jsSetDedup (l : List String) : (jsSetDedup l).Nodup :=
  nodup_jsSetDedup_aux l [] List.nodup_nil

/-- C8: for every assembled project, `versions` holds exactly the strings
occurring in some issue's `fixedVersions`, without duplicates (and with no
particular order promised). -/
theorem c8_versions_dedup (convert : MdConverter) (cfg : Config)
    (githubIssues : List GithubIssue)
    (githubComments : Option (List GithubComment)) (out : JiraData)
    (h : mapGithubDataToJiraData convert cfg githubIssues githubComments =
      Except.ok out) :
    ∀ proj ∈ out.projects,
      (∀ v, v ∈ proj.versions ↔
        ∃ issue ∈ proj.issues, v ∈ issue.fixedVersions) ∧
      proj.versions.Nodup := by
  cases githubComments with
  | none => exact absurd h (by simp [mapGithubDataToJiraData])
  | some cs =>
    simp only [mapGithubDataToJiraData] at h
    obtain ⟨issues, -, hout⟩ := exceptMap_eq_ok h
    subst hout
    intro proj hproj
    simp only [List.mem_singleton] at hproj
    subst hproj
    constructor
    · intro v
      rw [show (({ name := cfg.repo, externalName := cfg.repo
                   key := cfg.projectKey, issues := issues
                   versions := jsSetDedup (issues.flatMap JiraIssue.fixedVersions) }
                 : JiraProject)).versions =
            jsSetDedup (issues.flatMap JiraIssue.fixedVersions) from rfl,
        mem_jsSetDedup, List.mem_flatMap]
    · exact nodup_jsSetDedup _

/-- Witness for C8: two issues sharing the fix version `1.0`. -/
theorem c8_witness :
    mapGithubDataToJiraData convW cfgW2 [issueW8a, issueW8b] (some []) =
      Except.ok outW8 ∧
    (∀ proj ∈ outW8.projects,
      (∀ v, v ∈ proj.versions ↔
        ∃ issue ∈ proj.issues, v ∈ issue.fixedVersions) ∧
      proj.versions.Nodup) :=
  ⟨by rfl, c8_versions_dedup convW cfgW2 [issueW8a, issueW8b] (some []) outW8 (by rfl)⟩
